import Mathlib

/-!
Verification of the report-generation engine of the `statistical`
repository (`src/main.py`, `src/app.py`, `src/test.py`).

The Python sources are embedded shallowly: pandas DataFrames become lists
of rows, scalar cells become an explicit `Value` type with a missing
(`NaN`) constructor, the pivot tables and their totals rows become
explicit counting functions, and code paths that can raise a Python
exception return `Except`.
-/

namespace Statistical

/-- A scalar cell of the tabular data: either a missing value (pandas
`NaN` / Python `None`) or a string.  Every comparison the source performs
on cells is a string comparison or a missing-ness test. -/
inductive Value where
  | null : Value
  | str : String → Value
deriving DecidableEq, Repr

/-- A calendar date, the result of date normalization
(`pd.to_datetime(...)` followed by `.dt.date` in the sources). -/
structure Date where
  y : Nat
  m : Nat
  d : Nat
deriving DecidableEq, Repr

/-- Order key for dates, used by the date-bound comparisons
`Date_Obj >= pd.to_datetime(start_date)` and `Date_Obj < ...` of
`app.py`. -/
def Date.key (dt : Date) : Nat := dt.y * 10000 + dt.m * 100 + dt.d

/-- Split a character list on a separator character
(Python `s.split(sep)` for a one-character separator). -/
def splitOnChar (sep : Char) : List Char → List (List Char)
  | [] => [[]]
  | c :: cs =>
    let r := splitOnChar sep cs
    if c = sep then [] :: r
    else
      match r with
      | [] => [[c]]
      | h :: t => (c :: h) :: t

/-- Parse a non-empty run of decimal digits (Python `int(s)` for a plain
numeral, `None` when the text is not one). -/
def digitsToNat? (l : List Char) : Option Nat :=
  if l.isEmpty then none
  else if l.all Char.isDigit then
    some (l.foldl (fun n c => n * 10 + (c.toNat - 48)) 0)
  else none

/-- Python `int(s)` on trimmed text: an optional sign followed by
digits. -/
def intOfChars? : List Char → Option Int
  | '-' :: rest => (digitsToNat? rest).map (fun n => -(n : Int))
  | '+' :: rest => (digitsToNat? rest).map (fun n => (n : Int))
  | l => (digitsToNat? l).map (fun n => (n : Int))

/-- Python `s.strip()`: drop leading and trailing whitespace. -/
def trimList (l : List Char) : List Char :=
  ((l.dropWhile Char.isWhitespace).reverse.dropWhile Char.isWhitespace).reverse

/-- ASCII lowercase of one character (Python `str.lower` on the
header texts involved, which are ASCII). -/
def lowerChar (c : Char) : Char :=
  if 65 ≤ c.toNat ∧ c.toNat ≤ 90 then Char.ofNat (c.toNat + 32) else c

/-- Python `s.lower()`. -/
def lowerStr (s : String) : String :=
  String.mk (s.data.map lowerChar)

/-- The characters of `s` before the first `'T'` (all of `s` when there is
none); the date part of an ISO combined date-time string. -/
def dateSegment (s : String) : String :=
  String.mk (s.data.takeWhile (fun c => c ≠ 'T'))

/-- Whether the string contains a literal `'T'` time separator
(Python `'T' in x`). -/
def hasCharT (s : String) : Bool :=
  s.data.any (fun c => c = 'T')

/-- Models the pandas date parser on one string for the date shapes the
source data uses: a `YYYY-MM-DD` date, optionally followed by a `'T'` and
a time suffix.  Returns `none` on any other string (where pandas would
raise, or produce `NaT` under `errors='coerce'`). -/
def parseISODate (s : String) : Option Date :=
  match splitOnChar '-' s.data with
  | [ys, ms, ds] =>
    match digitsToNat? ys, digitsToNat? ms, digitsToNat? ds with
    | some yv, some mv, some dv =>
      if 1 ≤ mv ∧ mv ≤ 12 ∧ 1 ≤ dv ∧ dv ≤ 31 then some ⟨yv, mv, dv⟩ else none
    | _, _, _ => none
  | _ => none

/-- `pd.to_datetime` on one string followed by `.dt.date`: parse the date
part (before an optional `'T'`), `none` when unparsable. -/
def toDatetime (s : String) : Option Date :=
  parseISODate (dateSegment s)

/-- `pd.to_datetime(v, errors='coerce')` on one scalar: missing values
map to `NaT` (`none`), strings map to the parsed date or to `NaT` when
unparsable.  Never raises. -/
def toDatetimeCoerce : Value → Option Date
  | Value.null => none
  | Value.str s => toDatetime s

/-- `pd.to_datetime(v)` without `errors='coerce'` on one scalar, as used
by `main.py` and `test.py`: a missing value still maps to `NaT`, but an
unparsable string raises, modelled as `Except.error`. -/
def toDatetimeStrict : Value → Except String (Option Date)
  | Value.null => Except.ok none
  | Value.str s =>
    match toDatetime s with
    | some dt => Except.ok (some dt)
    | none => Except.error "Unknown datetime string format"

/-- The Drive processor's first normalization step (`app.py`):
`x.split('T')[0] if isinstance(x, str) and 'T' in x else x`. -/
def splitDatePart : Value → Value
  | Value.str s =>
    if hasCharT s then Value.str (dateSegment s) else Value.str s
  | v => v

/-- The full date normalization of the Drive reports (`app.py`): the
`split('T')` step followed by `pd.to_datetime(..., errors='coerce')`.
Total by construction: `none` is the `NaT` invalid marker. -/
def normalizeApp (v : Value) : Option Date :=
  toDatetimeCoerce (splitDatePart v)

/-- The date normalization of the file-based reports (`main.py` line 12,
`test.py` line 35): `pd.to_datetime(df['Created At']).dt.date` on one
scalar, with the exception an unparsable string raises modelled as
`Except.error`. -/
def normalizeMain (v : Value) : Except String (Option Date) :=
  toDatetimeStrict v

/-- One row of the `User Register` sheet with the four columns the
file-based reports (`main.py`, `test.py`) use. -/
structure Record where
  sourceName : Value
  refBy : Value
  userId : Value
  createdAt : Value
deriving DecidableEq, Repr

/-- `df[df['Source Name'] != 'direct']` row predicate of the by-source
reports (`main.py` line 9, `test.py` line 32).  As in pandas, a missing
`Source Name` compares unequal to `'direct'` and is kept. -/
def bySourceKeep (r : Record) : Bool :=
  decide (r.sourceName ≠ Value.str "direct")

/-- `df[(df['Source Name'] == 'direct') & (df['Ref By'].notna())]` row
predicate of the by-ref reports (`main.py` line 35, `test.py` line 61). -/
def byRefKeep (r : Record) : Bool :=
  decide (r.sourceName = Value.str "direct") && decide (r.refBy ≠ Value.null)

/-- Insert `x` in front of the first element `y` of `l` with `le x y`;
the step of a stable insertion sort. -/
def insertLe (le : α → α → Bool) (x : α) : List α → List α
  | [] => [x]
  | y :: ys => if le x y then x :: y :: ys else y :: insertLe le x ys

/-- Stable sort by the boolean comparison `le`; models Python
`sorted(l, key=...)` and the sorted group keys of pandas `pivot_table`,
both of which are stable. -/
def sortByLe (le : α → α → Bool) : List α → List α
  | [] => []
  | x :: xs => insertLe le x (sortByLe le xs)

/-- The order pandas gives group keys (string order; a missing key never
reaches the sort because `pivot_table` drops it). -/
def valueLe : Value → Value → Bool
  | Value.null, _ => true
  | Value.str _, Value.null => false
  | Value.str s, Value.str t => (compare s t).isLE

/-- The group keys of `pd.pivot_table`: the distinct non-missing values
of `key` over the dataset, sorted (rows whose group key is missing are
dropped, pandas `dropna=True`). -/
def pivotKeys (key : α → Value) (l : List α) : List Value :=
  sortByLe valueLe (((l.map key).filter (fun v => v ≠ Value.null)).dedup)

/-- One cell of the cross tabulation, `aggfunc='count'`: the number of
records in row group `r` and column group `c` whose value field is
present (pandas `count` counts non-`NaN` values only). -/
def pivotCell (rk ck vk : α → Value) (l : List α) (r c : Value) : Nat :=
  l.countP (fun x => decide (rk x = r ∧ ck x = c ∧ vk x ≠ Value.null))

/-- One cell of the synthetic totals row appended after pivoting
(`pivot_table.loc['Total'] = pivot_table.sum()` in `main.py`/`test.py`,
`totals.append(int(pivot_df[col].sum()))` in `app.py`): the sum of
column `c` over all data rows of the pivot. -/
def totalsCell (rk ck vk : α → Value) (l : List α) (c : Value) : Nat :=
  ((pivotKeys rk l).map (fun r => pivotCell rk ck vk l r c)).sum

/-- A materialized cross tabulation: row keys, column keys, and the dense
`cells` matrix in row-major order. -/
structure Pivot where
  rowKeys : List Value
  colKeys : List Value
  cells : List (List Nat)
deriving DecidableEq, Repr

/-- `pd.pivot_table(...)` with an explicitly ordered column-key list
(used after the sheet-name column re-sort of the each-sheet reports). -/
def mkPivotWithCols (rk ck vk : α → Value) (l : List α) (csOrder : List Value) :
    Pivot :=
  ⟨pivotKeys rk l, csOrder,
    (pivotKeys rk l).map (fun r => csOrder.map (fun c => pivotCell rk ck vk l r c))⟩

/-- `pd.pivot_table(l, index=rk, columns=ck, values=vk, aggfunc='count',
fill_value=0)`. -/
def mkPivot (rk ck vk : α → Value) (l : List α) : Pivot :=
  mkPivotWithCols rk ck vk l (pivotKeys ck l)

/-- The column sums of a materialized pivot. -/
def colSums (p : Pivot) : List Nat :=
  (List.range p.colKeys.length).map (fun j => (p.cells.map (fun row => row.getD j 0)).sum)

/-- `pivot_table.loc['Total'] = pivot_table.sum()`: append the synthetic
totals row to a materialized pivot. -/
def appendTotalsRow (p : Pivot) : Pivot :=
  ⟨p.rowKeys ++ [Value.str "Total"], p.colKeys, p.cells ++ [colSums p]⟩

/-- Auxiliary of `dedupByKey`: drop every record whose key was already
seen, scanning left to right. -/
def dedupByKeyAux (k : α → Value) (seen : List Value) : List α → List α
  | [] => []
  | x :: xs =>
    if k x ∈ seen then dedupByKeyAux k seen xs
    else x :: dedupByKeyAux k (k x :: seen) xs

/-- `df.drop_duplicates(subset=[key], keep='first')` (`main.py` line 64,
`test.py` line 93): keep only the first record, in original order, per
distinct value of the key field.  As in pandas, missing keys are
considered equal to each other. -/
def dedupByKey (k : α → Value) (l : List α) : List α :=
  dedupByKeyAux k [] l

/-- `read_spreadsheet_data` row fix-up (`app.py` lines 192-195): a row
with fewer than 7 cells gets one empty-string cell appended. -/
def padShortRow (row : List Value) : List Value :=
  if row.length < 7 then row ++ [Value.str ""] else row

/-- The fix-up applied to every row the remote-spreadsheet reader
returns. -/
def padRows (values : List (List Value)) : List (List Value) :=
  values.map padShortRow

/-- Whether `pat` occurs as a contiguous run inside `l`
(Python `pat in s` for lists of characters). -/
def listContainsSub [DecidableEq α] (pat : List α) : List α → Bool
  | [] => pat.isPrefixOf []
  | a :: l => pat.isPrefixOf (a :: l) || listContainsSub pat l

/-- Python substring test `pat in s`. -/
def strContainsSub (s pat : String) : Bool :=
  listContainsSub pat.data s.data

/-- The column predicate of the source-name resolver (`app.py` line 276):
`'source' in col.lower() and 'name' in col.lower()`. -/
def sourceNameMatch (col : String) : Bool :=
  strContainsSub (lowerStr col) "source" && strContainsSub (lowerStr col) "name"

/-- The column predicate of the referrer resolver (`app.py` line 392):
`'ref' in col.lower() and 'by' in col.lower()`. -/
def refByMatch (col : String) : Bool :=
  strContainsSub (lowerStr col) "ref" && strContainsSub (lowerStr col) "by"

/-- The Column Resolver loop of `app.py` (lines 275-279, 391-395 and the
other reports): scan the columns in order and remember each match; the
variable holds whatever matched most recently when the loop ends. -/
def resolveColumn (matchCol : String → Bool) (cols : List String) : Option String :=
  cols.foldl (fun acc col => if matchCol col then some col else acc) none

/-- The date-bound filter stage with direction `from` (`app.py` lines
300-301): when enabled, keep the rows whose normalized date is on or
after the boundary (a `NaT` compares `False`); when disabled, the stage
is skipped. -/
def filterDateFrom (enabled : Bool) (bound : Date) (l : List Record) : List Record :=
  if enabled then
    l.filter (fun r =>
      match normalizeApp r.createdAt with
      | some dt => decide (bound.key ≤ dt.key)
      | none => false)
  else l

/-- The date-bound filter stage with direction `before` (`app.py` lines
418-419 and 646-647): when enabled, keep the rows whose normalized date
is strictly before the boundary (a `NaT` compares `False`); when
disabled, the stage is skipped. -/
def filterDateBefore (enabled : Bool) (bound : Date) (l : List Record) : List Record :=
  if enabled then
    l.filter (fun r =>
      match normalizeApp r.createdAt with
      | some dt => decide (dt.key < bound.key)
      | none => false)
  else l

/-- `extract_number` of `main.py` (lines 101-105) and `_extract_number`
of `test.py` (lines 17-22): the integer matched by the regex `^(\d+)`,
`none` standing for the `float('inf')` returned when the name does not
start with a digit. -/
def mainExtractNumber (s : String) : Option Nat :=
  digitsToNat? (s.data.takeWhile Char.isDigit)

/-- Order on sort keys where `none` is `float('inf')`. -/
def infLe : Option Nat → Option Nat → Bool
  | some x, some y => decide (x ≤ y)
  | some _, none => true
  | none, some _ => false
  | none, none => true

/-- The comparison `sorted(columns, key=extract_number)` uses in
`main.py` and `test.py`. -/
def mainKeyLe (s t : String) : Bool :=
  infLe (mainExtractNumber s) (mainExtractNumber t)

/-- The `int(sheet_name.split('.')[0].strip())` attempt of
`DriveDataProcessor.extract_number` (`app.py` lines 710-718): `none` when
the `int()` call raises. -/
def appParsed (s : String) : Option Int :=
  intOfChars? (trimList ((splitOnChar '.' s.data).headD []))

/-- `DriveDataProcessor.extract_number` (`app.py` lines 710-718): the
integer before the first `'.'`, or the sentinel `999` when extraction
fails. -/
def appExtractNumber (s : String) : Int :=
  (appParsed s).getD 999

/-- The comparison `sorted(columns, key=self.extract_number)` uses in
`app.py`. -/
def appKeyLe (s t : String) : Bool :=
  decide (appExtractNumber s ≤ appExtractNumber t)

/-- `sorted(names, key=extract_number)` of `main.py`/`test.py`. -/
def sortSheetNamesMain (l : List String) : List String :=
  sortByLe mainKeyLe l

/-- `sorted(names, key=self.extract_number)` of `app.py`. -/
def sortSheetNamesApp (l : List String) : List String :=
  sortByLe appKeyLe l

/-- The column-ordering key as the specification words it: the part of
the name before the first `'.'` or whitespace character, parsed as an
integer; `none` when that part is not an integer numeral.  Stated from
the spec only, for comparison with the keys the code computes. -/
def specLeadingInt (s : String) : Option Int :=
  intOfChars? (s.data.takeWhile (fun c => ¬ (c = '.' ∨ c.isWhitespace)))

/-- `any(char.isdigit() for char in name)` (`app.py` line 70). -/
def hasDigitChar (s : String) : Bool :=
  s.data.any Char.isDigit

/-- The partition selection of `get_videos_dateframe` (`app.py` lines
63-79) over a mapping from sheet name to data rows, in insertion order:
only sheets that actually have data enter `df_dict`; of these, the
selection keeps the sheets other than `'User Register'` whose name
contains a digit, and falls back to every sheet other than
`'User Register'` when none qualifies. -/
def driveSelect (m : List (String × List α)) : List (String × List α) :=
  let dfDict := m.filter (fun p => ! p.2.isEmpty)
  let numbered := dfDict.filter
    (fun p => decide (p.1 ≠ "User Register") && hasDigitChar p.1)
  if numbered.isEmpty then
    dfDict.filter (fun p => decide (p.1 ≠ "User Register"))
  else numbered

/-- The Multi-Sheet Combiner of `get_videos_dateframe` (`app.py` lines
63-88): select partitions, tag every record with its partition name, and
concatenate in mapping order; `none` models the `return None` taken when
no sheet remains. -/
def driveCombine (m : List (String × List α)) : Option (List (String × α)) :=
  let sel := driveSelect m
  if sel.isEmpty then none
  else some (sel.flatMap (fun p => p.2.map (fun r => (p.1, r))))

/-- The partition selection of the file-based each-sheet reports
(`main.py` line 112, `test.py` line 142): keep the sheets whose name
contains a `'.'`. -/
def dotSelect (m : List (String × List α)) : List (String × List α) :=
  m.filter (fun p => p.1.data.any (fun c => c = '.'))

/-- The Multi-Sheet Combiner of `main.py` (lines 109-122): select the
sheets whose name contains a `'.'`, raising `ValueError` (modelled as
`Except.error`) when none does, and otherwise concatenate the selected
sheets with each record tagged by its sheet name. -/
def mainCombine (m : List (String × List α)) : Except String (List (String × α)) :=
  let sel := dotSelect m
  if sel.isEmpty then Except.error "No sheets found with dot in their names"
  else Except.ok (sel.flatMap (fun p => p.2.map (fun r => (p.1, r))))

/-- One row of a DataFrame with discovered schema: an ordered association
of column name to cell. -/
abbrev Row := List (String × Value)

/-- A pandas DataFrame: the column names and the rows.  A cell a row does
not carry (a column introduced by another sheet of the same concat) reads
as missing. -/
structure DataFrame where
  cols : List String
  rows : List Row
deriving DecidableEq, Repr

/-- Read one cell of a row; a column the row does not carry is `NaN`. -/
def getCell (row : Row) (c : String) : Value :=
  match row.find? (fun p => decide (p.1 = c)) with
  | some p => p.2
  | none => Value.null

/-- The message of the Python `KeyError` raised when a missing column is
accessed. -/
def keyError (c : String) : String :=
  "KeyError: " ++ c

/-- Zero-pad a number to two digits. -/
def pad2 (n : Nat) : String :=
  if n < 10 then "0" ++ Nat.repr n else Nat.repr n

/-- Zero-pad a number to four digits. -/
def pad4 (n : Nat) : String :=
  if n < 10 then "000" ++ Nat.repr n
  else if n < 100 then "00" ++ Nat.repr n
  else if n < 1000 then "0" ++ Nat.repr n
  else Nat.repr n

/-- Render a date the way the sources print the pivot keys
(ISO `YYYY-MM-DD`). -/
def isoDateString (dt : Date) : String :=
  pad4 dt.y ++ "-" ++ pad2 dt.m ++ "-" ++ pad2 dt.d

/-- A normalized date as a pivot group key; `NaT` stays missing and is
then dropped by the pivot. -/
def dateValue : Option Date → Value
  | some dt => Value.str (isoDateString dt)
  | none => Value.null

/-- `pd.to_datetime(df['Created At']).dt.date` over the whole column
(`test.py` lines 35 and 64): the first unparsable cell raises. -/
def strictConvertCreated (rows : List Row) : Except String (List (Row × Option Date)) :=
  rows.mapM (fun r => (toDatetimeStrict (getCell r "Created At")).map (fun d => (r, d)))

/-- `count_daily_registers_by_source_name` of `test.py` (lines 29-56):
drop the `'direct'` rows, normalize the dates strictly, pivot source
against date counting `User ID`, and append the totals row.  Each column
access of a missing column raises `KeyError`, in program order. -/
def dailyBySourceReport (df : DataFrame) : Except String Pivot :=
  if "Source Name" ∈ df.cols then
    let rows1 := df.rows.filter (fun r => decide (getCell r "Source Name" ≠ Value.str "direct"))
    if "Created At" ∈ df.cols then
      match strictConvertCreated rows1 with
      | Except.error e => Except.error e
      | Except.ok rows2 =>
        if "User ID" ∈ df.cols then
          Except.ok (appendTotalsRow (mkPivot
            (fun p => getCell p.1 "Source Name") (fun p => dateValue p.2)
            (fun p => getCell p.1 "User ID") rows2))
        else Except.error (keyError "User ID")
    else Except.error (keyError "Created At")
  else Except.error (keyError "Source Name")

/-- `count_daily_registers_by_ref` of `test.py` (lines 58-85): keep the
`'direct'` rows with a referrer, normalize the dates strictly, pivot
referrer against date counting `User ID`, and append the totals row. -/
def dailyByRefReport (df : DataFrame) : Except String Pivot :=
  if "Source Name" ∈ df.cols then
    if "Ref By" ∈ df.cols then
      let rows1 := df.rows.filter (fun r =>
        decide (getCell r "Source Name" = Value.str "direct") &&
        decide (getCell r "Ref By" ≠ Value.null))
      if "Created At" ∈ df.cols then
        match strictConvertCreated rows1 with
        | Except.error e => Except.error e
        | Except.ok rows2 =>
          if "User ID" ∈ df.cols then
            Except.ok (appendTotalsRow (mkPivot
              (fun p => getCell p.1 "Ref By") (fun p => dateValue p.2)
              (fun p => getCell p.1 "User ID") rows2))
          else Except.error (keyError "User ID")
      else Except.error (keyError "Created At")
    else Except.error (keyError "Ref By")
  else Except.error (keyError "Source Name")

/-- `count_users_by_source_name` of `test.py` (lines 87-110): drop the
`'direct'` rows, deduplicate by `User ID`, and pivot by source with the
single `User ID` count column.  No totals row is appended. -/
def usersBySourceReport (df : DataFrame) : Except String Pivot :=
  if "Source Name" ∈ df.cols then
    let rows1 := df.rows.filter (fun r => decide (getCell r "Source Name" ≠ Value.str "direct"))
    if "User ID" ∈ df.cols then
      let rows2 := dedupByKey (fun r => getCell r "User ID") rows1
      Except.ok (mkPivot (fun r => getCell r "Source Name")
        (fun _ => Value.str "User ID") (fun r => getCell r "User ID") rows2)
    else Except.error (keyError "User ID")
  else Except.error (keyError "Source Name")

/-- `count_users_by_ref` of `test.py` (lines 112-135): keep the
`'direct'` rows with a referrer, deduplicate by `User ID`, and pivot by
referrer with the single `User ID` count column.  No totals row. -/
def usersByRefReport (df : DataFrame) : Except String Pivot :=
  if "Source Name" ∈ df.cols then
    if "Ref By" ∈ df.cols then
      let rows1 := df.rows.filter (fun r =>
        decide (getCell r "Source Name" = Value.str "direct") &&
        decide (getCell r "Ref By" ≠ Value.null))
      if "User ID" ∈ df.cols then
        let rows2 := dedupByKey (fun r => getCell r "User ID") rows1
        Except.ok (mkPivot (fun r => getCell r "Ref By")
          (fun _ => Value.str "User ID") (fun r => getCell r "User ID") rows2)
      else Except.error (keyError "User ID")
    else Except.error (keyError "Ref By")
  else Except.error (keyError "Source Name")

/-- An uploaded Excel file: the sheets, by name, in file order. -/
abbrev Workbook := List (String × DataFrame)

/-- `pd.concat([df.assign(SheetName=name) for ...], ignore_index=True)`
(`test.py` lines 148-152): the union of the column sets in order of
first appearance plus the `SheetName` tag, and the rows concatenated in
sheet order, each tagged with its sheet name. -/
def concatSheets (sheets : List (String × DataFrame)) : DataFrame :=
  ⟨(sheets.foldl (fun acc p => acc ++ p.2.cols.filter (fun c => decide (c ∉ acc))) [])
      ++ ["SheetName"],
    sheets.flatMap (fun p => p.2.rows.map (fun r => r ++ [("SheetName", Value.str p.1)]))⟩

/-- `dropna(how='all')` row test: every column of the frame reads as
missing. -/
def rowAllNull (cols : List String) (r : Row) : Bool :=
  cols.all (fun c => decide (getCell r c = Value.null))

/-- Sheet-name order of the pivot columns, as re-sorted with
`_extract_number` (`test.py` lines 174, 224, 277). -/
def valueSheetLe : Value → Value → Bool
  | Value.null, _ => true
  | Value.str _, Value.null => false
  | Value.str s, Value.str t => mainKeyLe s t

/-- Outcome of one each-sheet report of `test.py`: a non-`Success`
status, or the pivot; a Python exception escapes as `Except.error`. -/
inductive ReportStep where
  | failed (status : String)
  | success (p : Pivot)
deriving DecidableEq, Repr

/-- `count_users_each_sheet_by_source_name` of `test.py` (lines
137-186): combine the dot-named sheets, clean the rows, pivot source
against sheet name, re-sort the columns by sheet number, and append the
totals row. -/
def eachSheetBySourceReport (wb : Workbook) : Except String ReportStep :=
  let sel := wb.filter (fun p => p.1.data.any (fun c => c = '.'))
  if sel.isEmpty then Except.ok (ReportStep.failed "No sheets found with dot in their names")
  else
    let combined := concatSheets sel
    let rows1 := combined.rows.filter (fun r => ! rowAllNull combined.cols r)
    if "Source Name" ∈ combined.cols then
      let rows2 := rows1.filter (fun r => decide (getCell r "Source Name" ≠ Value.null))
      let rows3 := rows2.filter (fun r => decide (getCell r "Source Name" ≠ Value.str "direct"))
      if "Source Name" ∈ combined.cols ∧ "User ID" ∈ combined.cols ∧
          "SheetName" ∈ combined.cols then
        let ck := fun (r : Row) => getCell r "SheetName"
        Except.ok (ReportStep.success (appendTotalsRow (mkPivotWithCols
          (fun r => getCell r "Source Name") ck (fun r => getCell r "User ID") rows3
          (sortByLe valueSheetLe (pivotKeys ck rows3)))))
      else Except.ok (ReportStep.failed
        "Required columns Source Name, User ID, or SheetName not found")
    else Except.error (keyError "Source Name")

/-- `count_users_each_sheet_by_ref` of `test.py` (lines 188-236). -/
def eachSheetByRefReport (wb : Workbook) : Except String ReportStep :=
  let sel := wb.filter (fun p => p.1.data.any (fun c => c = '.'))
  if sel.isEmpty then Except.ok (ReportStep.failed "No sheets found with dot in their names")
  else
    let combined := concatSheets sel
    let rows1 := combined.rows.filter (fun r => ! rowAllNull combined.cols r)
    if "Ref By" ∈ combined.cols then
      let rows2 := rows1.filter (fun r => decide (getCell r "Ref By" ≠ Value.null))
      if "Ref By" ∈ combined.cols ∧ "User ID" ∈ combined.cols ∧
          "SheetName" ∈ combined.cols then
        let ck := fun (r : Row) => getCell r "SheetName"
        Except.ok (ReportStep.success (appendTotalsRow (mkPivotWithCols
          (fun r => getCell r "Ref By") ck (fun r => getCell r "User ID") rows2
          (sortByLe valueSheetLe (pivotKeys ck rows2)))))
      else Except.ok (ReportStep.failed
        "Required columns Ref By, User ID, or SheetName not found")
    else Except.error (keyError "Ref By")

/-- `count_users_each_sheet_by_date` of `test.py` (lines 238-289). -/
def eachSheetByDateReport (wb : Workbook) : Except String ReportStep :=
  let sel := wb.filter (fun p => p.1.data.any (fun c => c = '.'))
  if sel.isEmpty then Except.ok (ReportStep.failed "No sheets found with dot in their names")
  else
    let combined := concatSheets sel
    let rows1 := combined.rows.filter (fun r => ! rowAllNull combined.cols r)
    if "Ref By" ∈ combined.cols then
      let rows2 := rows1.filter (fun r => decide (getCell r "Ref By" ≠ Value.null))
      if "Created At" ∈ combined.cols then
        match strictConvertCreated rows2 with
        | Except.error e => Except.error e
        | Except.ok rows3 =>
          if "Created At" ∈ combined.cols ∧ "User ID" ∈ combined.cols ∧
              "SheetName" ∈ combined.cols then
            let ck := fun (p : Row × Option Date) => getCell p.1 "SheetName"
            Except.ok (ReportStep.success (appendTotalsRow (mkPivotWithCols
              (fun p => dateValue p.2) ck (fun p => getCell p.1 "User ID") rows3
              (sortByLe valueSheetLe (pivotKeys ck rows3)))))
          else Except.ok (ReportStep.failed
            "Required columns Created At, User ID, or SheetName not found")
      else Except.error (keyError "Created At")
    else Except.error (keyError "Ref By")

/-- The seven report kinds `process_file` can be asked for. -/
inductive Op where
  | dailyBySource
  | dailyByRef
  | usersBySource
  | usersByRef
  | eachSheetBySource
  | eachSheetByRef
  | eachSheetByDate
deriving DecidableEq, Repr

/-- The four operations that read the `User Register` sheet. -/
def registerOps : List Op :=
  [Op.dailyBySource, Op.dailyByRef, Op.usersBySource, Op.usersByRef]

/-- The outcome `process_file` returns: the status text and, on full
success, the results mapping surfaced to the caller. -/
structure ProcOutcome where
  status : String
  results : Option (List (String × Pivot))
deriving DecidableEq, Repr

/-- The `User Register` block of `process_file` (`test.py` lines
301-321): run the requested register reports in order on the shared
frame; the first exception aborts the whole block. -/
def runRegisterBlock (df : DataFrame) (ops : List Op) :
    Except String (List (String × Pivot)) := do
  let r1 ← if Op.dailyBySource ∈ ops then
      (dailyBySourceReport df).map (fun p => [("Daily Registers by Source Name", p)])
    else pure []
  let r2 ← if Op.dailyByRef ∈ ops then
      (dailyByRefReport df).map (fun p => [("Daily Registers by Ref", p)])
    else pure []
  let r3 ← if Op.usersBySource ∈ ops then
      (usersBySourceReport df).map (fun p => [("Users by Source Name", p)])
    else pure []
  let r4 ← if Op.usersByRef ∈ ops then
      (usersByRefReport df).map (fun p => [("Users by Ref", p)])
    else pure []
  pure (r1 ++ r2 ++ r3 ++ r4)

/-- One each-sheet stage of `process_file`: when requested, a raised
exception or a non-`Success` status ends the batch at once with no
results; on success the report is recorded and processing continues. -/
def eachSheetStage (acc : List (String × Pivot)) (requested : Bool) (name : String)
    (rep : Except String ReportStep) (next : List (String × Pivot) → ProcOutcome) :
    ProcOutcome :=
  if requested then
    match rep with
    | Except.error e => ⟨"Error: " ++ e, none⟩
    | Except.ok (ReportStep.failed status) => ⟨status, none⟩
    | Except.ok (ReportStep.success p) => next (acc ++ [(name, p)])
  else next acc

/-- `process_file` of `test.py` (lines 291-359): the batch runner.  The
`User Register` block runs first and any exception in it ends the batch
with an error status and no results; then the three each-sheet reports
run in order with the same early-return behaviour; only a batch in which
every requested report succeeded surfaces the results mapping. -/
def processFile (file : Option Workbook) (ops : List Op) : ProcOutcome :=
  match file with
  | none => ⟨"Please upload an Excel file", none⟩
  | some wb =>
    let reg : Except String (List (String × Pivot)) :=
      if ops.any (fun o => decide (o ∈ registerOps)) then
        match wb.find? (fun p => decide (p.1 = "User Register")) with
        | none => Except.error "Worksheet named User Register not found"
        | some sheet => runRegisterBlock sheet.2 ops
      else Except.ok []
    match reg with
    | Except.error e => ⟨"Error processing User Register sheet: " ++ e, none⟩
    | Except.ok res0 =>
      eachSheetStage res0 (decide (Op.eachSheetBySource ∈ ops))
        "Users Each Sheet by Source Name" (eachSheetBySourceReport wb) (fun acc1 =>
      eachSheetStage acc1 (decide (Op.eachSheetByRef ∈ ops))
        "Users Each Sheet by Ref" (eachSheetByRefReport wb) (fun acc2 =>
      eachSheetStage acc2 (decide (Op.eachSheetByDate ∈ ops))
        "Users Each Sheet by Date" (eachSheetByDateReport wb) (fun acc3 =>
        if acc3.isEmpty then ⟨"No operations were performed.", none⟩
        else ⟨"Processing completed successfully!", some acc3⟩)))

/-! Concrete fixtures used to instantiate the theorems. -/

/-- The scenario of the spec: three registrations, sources `A`, `A`,
`B`, all with `User ID` present. -/
def regSample : List Record :=
  [⟨Value.str "A", Value.null, Value.str "u1", Value.str "2025-04-16"⟩,
   ⟨Value.str "A", Value.null, Value.str "u2", Value.str "2025-04-16"⟩,
   ⟨Value.str "B", Value.null, Value.str "u3", Value.str "2025-04-14"⟩]

/-- A dataset with one filtered record whose `User ID` is missing. -/
def nullIdSample : List Record :=
  [⟨Value.str "A", Value.null, Value.null, Value.str "2025-04-16"⟩]

/-- A record with source `'direct'` and no referrer. -/
def c9Rec : Record :=
  ⟨Value.str "direct", Value.null, Value.str "u1", Value.null⟩

/-- A three-cell spreadsheet row. -/
def c10RowShort : List Value :=
  [Value.str "a", Value.str "b", Value.str "c"]

/-- A seven-cell spreadsheet row. -/
def c10RowFull : List Value :=
  [Value.str "a", Value.str "b", Value.str "c", Value.str "d",
   Value.str "e", Value.str "f", Value.str "g"]

/-- An all-missing placeholder record. -/
def rec0 : Record := ⟨Value.null, Value.null, Value.null, Value.null⟩

/-- A `User Register` sheet that has source, date and id columns but no
referrer column. -/
def df0 : DataFrame :=
  ⟨["Source Name", "Created At", "User ID"],
   [[("Source Name", Value.str "A"),
     ("Created At", Value.str "2025-04-16T01:00:00Z"),
     ("User ID", Value.str "u1")]]⟩

/-- A workbook holding only that `User Register` sheet. -/
def wb0 : Workbook := [("User Register", df0)]

/-! Helper lemmas about `dedupByKeyAux`. -/

theorem dedupByKeyAux_key_not_seen (k : α → Value) (seen : List Value) (l : List α) :
    ∀ x ∈ dedupByKeyAux k seen l, k x ∉ seen := by
  induction l generalizing seen with
  | nil => simp [dedupByKeyAux]
  | cons a l ih =>
    intro x hx
    simp only [dedupByKeyAux] at hx
    by_cases h : k a ∈ seen
    · rw [if_pos h] at hx
      exact ih seen x hx
    · rw [if_neg h] at hx
      rcases List.mem_cons.mp hx with rfl | hx2
      · exact h
      · exact fun hc => ih (k a :: seen) x hx2 (List.mem_cons_of_mem _ hc)

theorem dedupByKeyAux_keys_nodup (k : α → Value) (seen : List Value) (l : List α) :
    ((dedupByKeyAux k seen l).map k).Nodup := by
  induction l generalizing seen with
  | nil => simp [dedupByKeyAux]
  | cons a l ih =>
    simp only [dedupByKeyAux]
    by_cases h : k a ∈ seen
    · rw [if_pos h]
      exact ih seen
    · rw [if_neg h]
      simp only [List.map_cons, List.nodup_cons]
      refine ⟨fun hmem => ?_, ih (k a :: seen)⟩
      rcases List.mem_map.mp hmem with ⟨x, hx, hkx⟩
      exact dedupByKeyAux_key_not_seen k (k a :: seen) l x hx
        (by rw [hkx]; exact List.mem_cons_self _ _)

theorem dedupByKeyAux_eq_self (k : α → Value) (seen : List Value) (l : List α)
    (h1 : ∀ x ∈ l, k x ∉ seen) (h2 : (l.map k).Nodup) :
    dedupByKeyAux k seen l = l := by
  induction l generalizing seen with
  | nil => simp [dedupByKeyAux]
  | cons a l ih =>
    simp only [dedupByKeyAux]
    rw [if_neg (h1 a (List.mem_cons_self a l))]
    simp only [List.map_cons, List.nodup_cons] at h2
    congr 1
    apply ih
    · intro x hx
      simp only [List.mem_cons]
      rintro (hk | hk)
      · exact h2.1 (hk ▸ List.mem_map_of_mem k hx)
      · exact h1 x (List.mem_cons_of_mem _ hx) hk
    · exact h2.2

/-- C8: first-occurrence-wins deduplication by a key field is
idempotent — for every dataset and every key field, applying
`drop_duplicates(subset=[key], keep='first')` twice yields the same
dataset as applying it once. -/
theorem c8_dedup_idempotent (k : α → Value) (l : List α) :
    dedupByKey k (dedupByKey k l) = dedupByKey k l :=
  dedupByKeyAux_eq_self k [] (dedupByKey k l)
    (fun x _ => List.not_mem_nil (k x))
    (dedupByKeyAux_keys_nodup k [] l)

/-- C9: the row predicate of the by-source reports and the row predicate
of the by-ref reports are mutually exclusive, and a record with source
`'direct'` and missing referrer satisfies neither. -/
theorem c9_preds_mutually_exclusive (r : Record) :
    (¬ (bySourceKeep r = true ∧ byRefKeep r = true)) ∧
    (r.sourceName = Value.str "direct" → r.refBy = Value.null →
      bySourceKeep r = false ∧ byRefKeep r = false) := by
  unfold bySourceKeep byRefKeep
  constructor
  · rintro ⟨h1, h2⟩
    simp only [decide_eq_true_eq, Bool.and_eq_true] at h1 h2
    exact h1 h2.1
  · intro hs hr
    simp [hs, hr]

/-- Witness for C9 at the concrete record with source `'direct'` and
missing referrer. -/
theorem c9_preds_mutually_exclusive_witness :
    (¬ (bySourceKeep c9Rec = true ∧ byRefKeep c9Rec = true)) ∧
    (bySourceKeep c9Rec = false ∧ byRefKeep c9Rec = false) :=
  ⟨(c9_preds_mutually_exclusive c9Rec).1,
   (c9_preds_mutually_exclusive c9Rec).2 rfl rfl⟩

/-- C10: the remote-spreadsheet reader appends exactly one empty-string
cell to every row shorter than 7 cells, leaves rows of 7 or more cells
unchanged, and hence a row arriving with fewer than 6 cells still has
fewer than 7 cells afterwards. -/
theorem c10_pad_row (row : List Value) :
    (row.length < 7 → padShortRow row = row ++ [Value.str ""]) ∧
    (7 ≤ row.length → padShortRow row = row) ∧
    (row.length < 6 → (padShortRow row).length < 7) := by
  unfold padShortRow
  refine ⟨fun h => if_pos h, fun h => if_neg (by omega), fun h => ?_⟩
  rw [if_pos (by omega)]
  simp only [List.length_append, List.length_cons, List.length_nil]
  omega

/-- Witness for C10 at a three-cell row and a seven-cell row. -/
theorem c10_pad_row_witness :
    padShortRow c10RowShort = c10RowShort ++ [Value.str ""] ∧
    padShortRow c10RowFull = c10RowFull ∧
    (padShortRow c10RowShort).length < 7 :=
  ⟨(c10_pad_row c10RowShort).1 (by decide),
   (c10_pad_row c10RowFull).2.1 (by decide),
   (c10_pad_row c10RowShort).2.2 (by decide)⟩

/-- The resolver loop with an arbitrary starting accumulator: the result
is the last match when there is one, and the accumulator otherwise. -/
theorem foldl_resolve (m : String → Bool) (cols : List String) (acc : Option String) :
    cols.foldl (fun a c => if m c then some c else a) acc
      = (cols.reverse.find? m).or acc := by
  induction cols generalizing acc with
  | nil => simp
  | cons c cols ih =>
    simp only [List.foldl_cons, List.reverse_cons, List.find?_append, ih,
      Option.or_assoc]
    cases hf : cols.reverse.find? m with
    | none =>
      simp only [Option.none_or]
      cases hm : m c <;> simp [List.find?_cons, hm]
    | some x => simp

/-- C2 amended: the Column Resolver returns the LAST matching column in
column order (the resolver loop of `app.py` has no `break`, so each
later match overwrites the earlier one); with no match it returns the
absence value. -/
theorem c2_resolver_last_match (m : String → Bool) (cols : List String) :
    resolveColumn m cols = cols.reverse.find? m := by
  unfold resolveColumn
  rw [foldl_resolve, Option.or_none]

/-- C2 counterexample: with two columns both satisfying the
source-name predicates, the resolver returns the second, not the first
as the claim states. -/
theorem c2_counterexample :
    sourceNameMatch "Source Name A" = true ∧
    sourceNameMatch "Source Name B" = true ∧
    resolveColumn sourceNameMatch ["Source Name A", "Source Name B"]
      = some "Source Name B" ∧
    resolveColumn sourceNameMatch ["Source Name A", "Source Name B"]
      ≠ some "Source Name A" := by
  decide

/-- C7: with the stage enabled, direction `from` keeps exactly the
records whose normalized date exists and is on or after the boundary,
and direction `before` keeps exactly those whose normalized date exists
and is strictly before it; with the stage disabled, both directions are
the identity on the dataset. -/
theorem c7_date_bound_filter (b : Date) (l : List Record) (r : Record) :
    (r ∈ filterDateFrom true b l ↔
      r ∈ l ∧ ∃ dt, normalizeApp r.createdAt = some dt ∧ b.key ≤ dt.key) ∧
    (r ∈ filterDateBefore true b l ↔
      r ∈ l ∧ ∃ dt, normalizeApp r.createdAt = some dt ∧ dt.key < b.key) ∧
    filterDateFrom false b l = l ∧ filterDateBefore false b l = l := by
  refine ⟨?_, ?_, rfl, rfl⟩
  · unfold filterDateFrom
    rw [if_pos rfl, List.mem_filter]
    cases hn : normalizeApp r.createdAt with
    | none => simp [hn]
    | some dt => simp [hn]
  · unfold filterDateBefore
    rw [if_pos rfl, List.mem_filter]
    cases hn : normalizeApp r.createdAt with
    | none => simp [hn]
    | some dt => simp [hn]

/-- Taking the prefix before `'T'` twice changes nothing. -/
theorem dateSegment_idem (s : String) :
    dateSegment (dateSegment s) = dateSegment s := by
  unfold dateSegment
  congr 1
  exact List.takeWhile_idem

/-- The composite of the `split('T')` step and the coercing parse is the
plain coercing parse: taking the prefix before `'T'` twice changes
nothing. -/
theorem normalizeApp_str (s : String) :
    normalizeApp (Value.str s) = toDatetime s := by
  by_cases h : hasCharT s = true
  · simp only [normalizeApp, splitDatePart, if_pos h]
    show toDatetime (dateSegment s) = toDatetime s
    unfold toDatetime
    rw [dateSegment_idem]
  · simp only [normalizeApp, splitDatePart, if_neg h]
    rfl

/-- C4 amended: the Drive variant's normalization is total — it returns
the `NaT` invalid marker exactly for missing scalars and strings whose
date part does not parse, and a canonical date otherwise, never an
exception; the file variants' normalization instead raises exactly on
the strings that fail to parse. -/
theorem c4_normalization_totality (v : Value) :
    (normalizeApp v = none ↔
      v = Value.null ∨ ∃ s, v = Value.str s ∧ toDatetime s = none) ∧
    ((∃ e, normalizeMain v = Except.error e) ↔
      ∃ s, v = Value.str s ∧ toDatetime s = none) := by
  cases v with
  | null =>
    constructor
    · simp [normalizeApp, splitDatePart, toDatetimeCoerce]
    · simp [normalizeMain, toDatetimeStrict]
  | str s =>
    constructor
    · rw [normalizeApp_str]
      simp
    · unfold normalizeMain toDatetimeStrict
      cases ht : toDatetime s with
      | none => simp [ht]
      | some dt => simp [ht]

/-- C4 counterexample: the file-based normalization
(`pd.to_datetime(df['Created At'])` of `main.py` line 12) raises on an
unparsable string instead of returning an invalid marker. -/
theorem c4_counterexample :
    normalizeMain (Value.str "not-a-date")
      = Except.error "Unknown datetime string format" := by
  rfl

/-! Helper lemmas about the stable sort and the pivot keys. -/

theorem insertLe_perm (le : α → α → Bool) (x : α) (l : List α) :
    (insertLe le x l).Perm (x :: l) := by
  induction l with
  | nil => exact List.Perm.refl _
  | cons y ys ih =>
    unfold insertLe
    by_cases h : le x y = true
    · rw [if_pos h]
    · rw [if_neg h]
      exact (ih.cons y).trans (List.Perm.swap x y ys)

theorem sortByLe_perm (le : α → α → Bool) (l : List α) :
    (sortByLe le l).Perm l := by
  induction l with
  | nil => exact List.Perm.refl _
  | cons x xs ih =>
    exact (insertLe_perm le x (sortByLe le xs)).trans (List.Perm.cons x ih)

theorem pivotKeys_nodup (key : α → Value) (l : List α) :
    (pivotKeys key l).Nodup := by
  unfold pivotKeys
  exact (sortByLe_perm valueLe _).nodup_iff.mpr (List.nodup_dedup _)

theorem mem_pivotKeys (key : α → Value) (l : List α) (v : Value) :
    v ∈ pivotKeys key l ↔ v ∈ l.map key ∧ v ≠ Value.null := by
  unfold pivotKeys
  rw [(sortByLe_perm valueLe _).mem_iff, List.mem_dedup, List.mem_filter]
  simp

theorem sum_map_eq_zero (K : List β) (f : β → Nat) (h : ∀ r ∈ K, f r = 0) :
    (K.map f).sum = 0 := by
  induction K with
  | nil => rfl
  | cons a K ih =>
    simp [h a (List.mem_cons_self a K),
      ih (fun r hr => h r (List.mem_cons_of_mem _ hr))]

theorem sum_map_add (K : List β) (f g : β → Nat) :
    (K.map (fun r => f r + g r)).sum = (K.map f).sum + (K.map g).sum := by
  induction K with
  | nil => rfl
  | cons a K ih =>
    simp only [List.map_cons, List.sum_cons, ih]
    omega

theorem sum_map_indicator :
    ∀ (K : List Value), K.Nodup → ∀ a ∈ K,
      (K.map (fun r => if a = r then 1 else 0)).sum = 1 := by
  intro K
  induction K with
  | nil => intro _ a ha; cases ha
  | cons b K ih =>
    intro hnd a ha
    simp only [List.map_cons, List.sum_cons]
    rcases List.mem_cons.mp ha with rfl | hmem
    · rw [if_pos rfl, sum_map_eq_zero K _ ?_]
      intro r hr
      rw [if_neg]
      rintro rfl
      exact (List.nodup_cons.mp hnd).1 hr
    · have hb : a ≠ b := by
        rintro rfl
        exact (List.nodup_cons.mp hnd).1 hmem
      rw [if_neg hb, ih (List.nodup_cons.mp hnd).2 a hmem]

/-- Partition of a count by the fibers of a key: summing, over a
duplicate-free list of keys covering the data, the number of records
with that key satisfying `p`, yields the number of records satisfying
`p`. -/
theorem sum_countP_fiber (k : α → Value) (p : α → Bool) (K : List Value)
    (hnd : K.Nodup) :
    ∀ (l : List α), (∀ x ∈ l, p x = true → k x ∈ K) →
      (K.map (fun r => l.countP (fun x => decide (k x = r) && p x))).sum
        = l.countP p := by
  intro l
  induction l with
  | nil =>
    intro _
    simp only [List.countP_nil]
    exact sum_map_eq_zero K _ (fun r _ => rfl)
  | cons x l ih =>
    intro hcov
    have hcov2 : ∀ y ∈ l, p y = true → k y ∈ K :=
      fun y hy => hcov y (List.mem_cons_of_mem _ hy)
    cases hp : p x with
    | false =>
      simp only [List.countP_cons, hp, Bool.and_false, if_neg, reduceIte,
        Nat.add_zero]
      exact ih hcov2
    | true =>
      simp only [List.countP_cons, hp, Bool.and_true, if_pos, reduceIte]
      rw [sum_map_add, ih hcov2]
      have hx : k x ∈ K := hcov x (List.mem_cons_self _ _) hp
      simp only [decide_eq_true_eq]
      rw [sum_map_indicator K hnd (k x) hx]

/-- C1 amended: the totals cell of each column is, by construction, the
column-wise sum of the pivot's values over all data rows, and — provided
every filtered record has a non-missing row key and a non-missing value
field, the cells being `aggfunc='count'` counts of the value field —
that sum equals the number of underlying filtered records falling in the
column. -/
theorem c1_totals_row (rk ck vk : α → Value) (l : List α) (c : Value)
    (hr : ∀ x ∈ l, rk x ≠ Value.null) (hv : ∀ x ∈ l, vk x ≠ Value.null) :
    totalsCell rk ck vk l c
        = ((pivotKeys rk l).map (fun r => pivotCell rk ck vk l r c)).sum ∧
      totalsCell rk ck vk l c = l.countP (fun x => decide (ck x = c)) := by
  refine ⟨rfl, ?_⟩
  unfold totalsCell pivotCell
  have hsplit : ∀ r : Value,
      l.countP (fun x => decide (rk x = r ∧ ck x = c ∧ vk x ≠ Value.null))
        = l.countP (fun x => decide (rk x = r) &&
            decide (ck x = c ∧ vk x ≠ Value.null)) :=
    fun r => List.countP_congr (fun x _ => by simp)
  simp only [hsplit]
  rw [sum_countP_fiber rk (fun x => decide (ck x = c ∧ vk x ≠ Value.null))
    (pivotKeys rk l) (pivotKeys_nodup rk l) l ?_]
  · exact List.countP_congr (fun x hx => by simp [hv x hx])
  · intro x hx _
    exact (mem_pivotKeys rk l (rk x)).mpr ⟨List.mem_map_of_mem rk hx, hr x hx⟩

/-- Witness for C1 at the three-record scenario of the spec. -/
theorem c1_totals_row_witness :
    totalsCell Record.sourceName Record.createdAt Record.userId regSample
        (Value.str "2025-04-16")
      = ((pivotKeys Record.sourceName regSample).map
          (fun r => pivotCell Record.sourceName Record.createdAt Record.userId
            regSample r (Value.str "2025-04-16"))).sum ∧
    totalsCell Record.sourceName Record.createdAt Record.userId regSample
        (Value.str "2025-04-16")
      = regSample.countP (fun x => decide (x.createdAt = Value.str "2025-04-16")) :=
  c1_totals_row Record.sourceName Record.createdAt Record.userId regSample
    (Value.str "2025-04-16") (by decide) (by decide)

/-- C1 counterexample: a filtered record whose value field (`User ID`)
is missing falls in its column but is not counted by the pivot, so the
totals cell differs from the number of underlying filtered records in
that column. -/
theorem c1_counterexample :
    totalsCell Record.sourceName Record.createdAt Record.userId nullIdSample
        (Value.str "2025-04-16") = 0 ∧
    nullIdSample.countP
        (fun x => decide (x.createdAt = Value.str "2025-04-16")) = 1 ∧
    totalsCell Record.sourceName Record.createdAt Record.userId nullIdSample
        (Value.str "2025-04-16")
      ≠ nullIdSample.countP
          (fun x => decide (x.createdAt = Value.str "2025-04-16")) := by
  decide

/-! Helper lemmas for the column re-sort of the each-sheet reports. -/

theorem eq_none_of_isSome_false {o : Option γ} (h : o.isSome = false) :
    o = none := by
  cases o with
  | none => rfl
  | some a => simp at h

theorem insertLe_append_skip (le : α → α → Bool) (x : α) (S B : List α)
    (hS : ∀ y ∈ S, le x y = false) :
    insertLe le x (S ++ B) = S ++ insertLe le x B := by
  induction S with
  | nil => rfl
  | cons y S ih =>
    simp only [List.cons_append, insertLe, List.append_eq]
    rw [if_neg (by simp [hS y (List.mem_cons_self y S)]),
      ih (fun z hz => hS z (List.mem_cons_of_mem _ hz))]

theorem insertLe_append_front (le : α → α → Bool) (x : α) (S B : List α)
    (hB : ∀ b ∈ B, le x b = true) :
    insertLe le x (S ++ B) = insertLe le x S ++ B := by
  induction S with
  | nil =>
    cases B with
    | nil => rfl
    | cons b B =>
      simp only [List.nil_append, insertLe]
      rw [if_pos (hB b (List.mem_cons_self _ _))]
      rfl
  | cons y S ih =>
    simp only [List.cons_append, insertLe, List.append_eq]
    by_cases h : le x y = true
    · rw [if_pos h, if_pos h]
      simp
    · rw [if_neg h, if_neg h, ih]
      simp

theorem insertLe_eq_cons (le : α → α → Bool) (x : α) (B : List α)
    (hB : ∀ b ∈ B, le x b = true) :
    insertLe le x B = x :: B := by
  cases B with
  | nil => rfl
  | cons b B =>
    unfold insertLe
    rw [if_pos (hB b (List.mem_cons_self _ _))]

/-- A stable sort whose comparison sends every element failing `p` after
every element satisfying it decomposes: the sorted list is the sorted
good part followed by the bad part in its original order. -/
theorem sortByLe_decomp (le : α → α → Bool) (p : α → Bool) :
    ∀ (l : List α),
      (∀ x ∈ l, ∀ y ∈ l, p x = false → p y = false → le x y = true) →
      (∀ x ∈ l, ∀ y ∈ l, p x = true → p y = false → le x y = true) →
      (∀ x ∈ l, ∀ y ∈ l, p x = false → p y = true → le x y = false) →
      sortByLe le l
        = sortByLe le (l.filter p) ++ l.filter (fun x => ! p x) := by
  intro l
  induction l with
  | nil => intro _ _ _; rfl
  | cons x xs ih =>
    intro hbb hgb hbg
    have hx : x ∈ x :: xs := List.mem_cons_self x xs
    have hmem : ∀ z ∈ xs, z ∈ x :: xs := fun z hz => List.mem_cons_of_mem _ hz
    have ihr := ih
      (fun a ha b hb => hbb a (hmem a ha) b (hmem b hb))
      (fun a ha b hb => hgb a (hmem a ha) b (hmem b hb))
      (fun a ha b hb => hbg a (hmem a ha) b (hmem b hb))
    simp only [sortByLe]
    rw [ihr]
    have hmemS : ∀ y ∈ sortByLe le (xs.filter p), y ∈ xs ∧ p y = true :=
      fun y hy =>
        List.mem_filter.mp ((sortByLe_perm le (xs.filter p)).mem_iff.mp hy)
    have hmemB : ∀ b ∈ xs.filter (fun z => ! p z), b ∈ xs ∧ p b = false := by
      intro b hb
      rcases List.mem_filter.mp hb with ⟨h1, h2⟩
      exact ⟨h1, by simpa using h2⟩
    cases hp : p x with
    | true =>
      rw [insertLe_append_front le x _ _ (fun b hb =>
        hgb x hx b (hmem b (hmemB b hb).1) hp (hmemB b hb).2)]
      simp [List.filter_cons, hp, sortByLe]
    | false =>
      rw [insertLe_append_skip le x _ _ (fun y hy =>
        hbg x hx y (hmem y (hmemS y hy).1) hp (hmemS y hy).2)]
      rw [insertLe_eq_cons le x _ (fun b hb =>
        hbb x hx b (hmem b (hmemB b hb).1) hp (hmemB b hb).2)]
      simp [List.filter_cons, hp]

/-- C6 amended: the each-sheet pivot columns are sorted ascending by the
code's own keys — `main.py`/`test.py` parse the leading digit run of the
name (not the part before the first `'.'` or whitespace) with names
lacking one keyed at infinity, so those names end up after all others in
their original relative order; `app.py` parses the part before the first
`'.'` with failures keyed by the sentinel `999`, which sends unparsable
names after the others only when every parsed key is below `999`. -/
theorem c6_sheet_order (l : List String)
    (happ : ∀ s ∈ l, appParsed s = none ∨ appExtractNumber s < 999) :
    sortSheetNamesMain l
        = sortByLe mainKeyLe (l.filter (fun s => (mainExtractNumber s).isSome))
          ++ l.filter (fun s => ! (mainExtractNumber s).isSome) ∧
      sortSheetNamesApp l
        = sortByLe appKeyLe (l.filter (fun s => (appParsed s).isSome))
          ++ l.filter (fun s => ! (appParsed s).isSome) := by
  constructor
  · apply sortByLe_decomp mainKeyLe _ l
    · intro x _ y _ hx hy
      have hx2 := eq_none_of_isSome_false hx
      have hy2 := eq_none_of_isSome_false hy
      simp [mainKeyLe, hx2, hy2, infLe]
    · intro x _ y _ hx hy
      rcases Option.isSome_iff_exists.mp hx with ⟨n, hn⟩
      have hy2 := eq_none_of_isSome_false hy
      simp [mainKeyLe, hn, hy2, infLe]
    · intro x _ y _ hx hy
      have hx2 := eq_none_of_isSome_false hx
      rcases Option.isSome_iff_exists.mp hy with ⟨n, hn⟩
      simp [mainKeyLe, hx2, hn, infLe]
  · apply sortByLe_decomp appKeyLe _ l
    · intro x _ y _ hx hy
      have hx2 := eq_none_of_isSome_false hx
      have hy2 := eq_none_of_isSome_false hy
      simp [appKeyLe, appExtractNumber, hx2, hy2]
    · intro x hxl y hyl hx hy
      rcases Option.isSome_iff_exists.mp hx with ⟨n, hn⟩
      have hy2 := eq_none_of_isSome_false hy
      rcases happ x hxl with hc | hc
      · rw [hn] at hc; cases hc
      · simp only [appKeyLe, appExtractNumber, hy2, Option.getD_none,
          decide_eq_true_eq]
        simp only [appExtractNumber] at hc
        omega
    · intro x hxl y hyl hx hy
      have hx2 := eq_none_of_isSome_false hx
      rcases Option.isSome_iff_exists.mp hy with ⟨n, hn⟩
      rcases happ y hyl with hc | hc
      · rw [hn] at hc; cases hc
      · simp only [appKeyLe, appExtractNumber, hx2, Option.getD_none,
          decide_eq_false_iff_not, not_le]
        simp only [appExtractNumber] at hc
        omega

/-- Witness for C6 at the sheet names of the spec scenario plus a
number-free name. -/
theorem c6_sheet_order_witness :
    sortSheetNamesMain ["2. Advanced", "1. Intro", "Notes"]
        = sortByLe mainKeyLe
            (["2. Advanced", "1. Intro", "Notes"].filter
              (fun s => (mainExtractNumber s).isSome))
          ++ ["2. Advanced", "1. Intro", "Notes"].filter
              (fun s => ! (mainExtractNumber s).isSome) ∧
      sortSheetNamesApp ["2. Advanced", "1. Intro", "Notes"]
        = sortByLe appKeyLe
            (["2. Advanced", "1. Intro", "Notes"].filter
              (fun s => (appParsed s).isSome))
          ++ ["2. Advanced", "1. Intro", "Notes"].filter
              (fun s => ! (appParsed s).isSome) :=
  c6_sheet_order ["2. Advanced", "1. Intro", "Notes"] (by decide)

/-- C6 counterexample: `"1000. X"` has a parsable leading integer and
`"Notes"` has none, yet the `app.py` sort puts `"Notes"` first, because
the sentinel key `999` is smaller than `1000`. -/
theorem c6_counterexample :
    specLeadingInt "1000. X" = some 1000 ∧
    specLeadingInt "Notes" = none ∧
    sortSheetNamesApp ["1000. X", "Notes"] = ["Notes", "1000. X"] ∧
    sortSheetNamesApp ["1000. X", "Notes"] ≠ ["1000. X", "Notes"] := by
  decide

/-! Helper lemmas about the Multi-Sheet Combiner. -/

theorem driveSelect_mem (m : List (String × List α)) (p : String × List α) :
    p ∈ driveSelect m ↔
      p ∈ m ∧ p.2 ≠ [] ∧ p.1 ≠ "User Register" ∧
        (hasDigitChar p.1 = true ∨
          ∀ q ∈ m, q.2 ≠ [] → q.1 ≠ "User Register" →
            hasDigitChar q.1 = false) := by
  have hds : driveSelect m
      = if ((m.filter (fun p => ! p.2.isEmpty)).filter
            (fun p => decide (p.1 ≠ "User Register") && hasDigitChar p.1)).isEmpty
        then (m.filter (fun p => ! p.2.isEmpty)).filter
          (fun p => decide (p.1 ≠ "User Register"))
        else (m.filter (fun p => ! p.2.isEmpty)).filter
          (fun p => decide (p.1 ≠ "User Register") && hasDigitChar p.1) := rfl
  rw [hds, List.filter_filter, List.filter_filter]
  by_cases hnum : (m.filter
      (fun a => (decide (a.1 ≠ "User Register") && hasDigitChar a.1) &&
        ! a.2.isEmpty)).isEmpty = true
  · rw [if_pos hnum]
    have hall : ∀ q ∈ m, q.2 ≠ [] → q.1 ≠ "User Register" →
        hasDigitChar q.1 = false := by
      intro q hq hq2 hq3
      have hnil := List.filter_eq_nil_iff.mp (List.isEmpty_iff.mp hnum) q hq
      simp only [Bool.and_eq_true, decide_eq_true_eq, Bool.not_eq_true',
        List.isEmpty_eq_false, not_and] at hnil
      rcases Bool.eq_false_or_eq_true (hasDigitChar q.1) with h | h
      · exact absurd hq2 (hnil ⟨hq3, h⟩)
      · exact h
    constructor
    · intro hp
      rcases List.mem_filter.mp hp with ⟨hm, hcond⟩
      simp only [Bool.and_eq_true, decide_eq_true_eq, Bool.not_eq_true',
        List.isEmpty_eq_false] at hcond
      exact ⟨hm, hcond.2, hcond.1, Or.inr hall⟩
    · rintro ⟨hm, h2, h3, _⟩
      refine List.mem_filter.mpr ⟨hm, ?_⟩
      simp only [Bool.and_eq_true, decide_eq_true_eq, Bool.not_eq_true',
        List.isEmpty_eq_false]
      exact ⟨h3, h2⟩
  · rw [if_neg hnum]
    have hex := List.exists_mem_of_ne_nil _
      (fun h => hnum (List.isEmpty_iff.mpr h))
    constructor
    · intro hp
      rcases List.mem_filter.mp hp with ⟨hm, hcond⟩
      simp only [Bool.and_eq_true, decide_eq_true_eq, Bool.not_eq_true',
        List.isEmpty_eq_false] at hcond
      exact ⟨hm, hcond.2, hcond.1.1, Or.inl hcond.1.2⟩
    · rintro ⟨hm, h2, h3, hd | hall⟩
      · refine List.mem_filter.mpr ⟨hm, ?_⟩
        simp only [Bool.and_eq_true, decide_eq_true_eq, Bool.not_eq_true',
          List.isEmpty_eq_false]
        exact ⟨⟨h3, hd⟩, h2⟩
      · exfalso
        rcases hex with ⟨q, hq⟩
        rcases List.mem_filter.mp hq with ⟨hqm, hqcond⟩
        simp only [Bool.and_eq_true, decide_eq_true_eq, Bool.not_eq_true',
          List.isEmpty_eq_false] at hqcond
        have := hall q hqm hqcond.2 hqcond.1.1
        rw [this] at hqcond
        exact Bool.false_ne_true hqcond.1.2

theorem driveSelect_eq_nil_iff (m : List (String × List α)) :
    driveSelect m = [] ↔ ∀ p ∈ m, p.2 = [] ∨ p.1 = "User Register" := by
  constructor
  · intro hnil p hp
    by_contra hc
    push_neg at hc
    have : p ∈ driveSelect m := by
      rw [driveSelect_mem]
      refine ⟨hp, hc.1, hc.2, ?_⟩
      rcases Bool.eq_false_or_eq_true (hasDigitChar p.1) with h | h
      · exact Or.inl h
      · right
        intro q hq hq2 hq3
        by_contra hqd
        have hqd2 : hasDigitChar q.1 = true := by
          rcases Bool.eq_false_or_eq_true (hasDigitChar q.1) with h2 | h2
          · exact h2
          · exact absurd h2 hqd
        have : q ∈ driveSelect m := by
          rw [driveSelect_mem]
          exact ⟨hq, hq2, hq3, Or.inl hqd2⟩
        rw [hnil] at this
        cases this
    rw [hnil] at this
    cases this
  · intro hall
    by_contra hc
    rcases List.exists_mem_of_ne_nil _ hc with ⟨p, hp⟩
    rcases (driveSelect_mem m p).mp hp with ⟨hm, h2, h3, _⟩
    rcases hall p hm with h | h
    · exact h2 h
    · exact h3 h

theorem driveCombine_none_iff (m : List (String × List α)) :
    driveCombine m = none ↔ ∀ p ∈ m, p.2 = [] ∨ p.1 = "User Register" := by
  have hdc : driveCombine m
      = if (driveSelect m).isEmpty then none
        else some ((driveSelect m).flatMap
          (fun p => p.2.map (fun r => (p.1, r)))) := rfl
  rw [hdc]
  by_cases hsel : (driveSelect m).isEmpty = true
  · rw [if_pos hsel]
    simp only [true_iff]
    exact (driveSelect_eq_nil_iff m).mp (List.isEmpty_iff.mp hsel)
  · rw [if_neg hsel]
    simp only [reduceCtorEq, false_iff]
    intro hall
    exact hsel (List.isEmpty_iff.mpr ((driveSelect_eq_nil_iff m).mpr hall))

theorem mainCombine_error_iff (m : List (String × List α)) (e : String) :
    mainCombine m = Except.error e ↔
      (e = "No sheets found with dot in their names" ∧
        ∀ p ∈ m, p.1.data.any (fun c => decide (c = '.')) = false) := by
  have hmc : mainCombine m
      = if (dotSelect m).isEmpty
        then Except.error "No sheets found with dot in their names"
        else Except.ok ((dotSelect m).flatMap
          (fun p => p.2.map (fun r => (p.1, r)))) := rfl
  rw [hmc]
  by_cases hsel : (dotSelect m).isEmpty = true
  · rw [if_pos hsel]
    have hall := List.filter_eq_nil_iff.mp (List.isEmpty_iff.mp hsel)
    simp only [Except.error.injEq]
    constructor
    · intro h
      refine ⟨h.symm, fun p hp => ?_⟩
      exact Bool.eq_false_iff.mpr (hall p hp)
    · intro h
      exact h.1.symm
  · rw [if_neg hsel]
    simp only [reduceCtorEq, false_iff, not_and]
    intro _
    intro hall
    apply hsel
    apply List.isEmpty_iff.mpr
    apply List.filter_eq_nil_iff.mpr
    intro p hp
    simp [hall p hp]

/-- C3 corrected: the Drive combiner selects exactly the non-empty
partitions other than `'User Register'` whose name contains a digit,
falling back to every non-empty partition except `'User Register'` when
none qualifies, and returns the explicit no-data result exactly when no
partition survives that selection — in particular also when the only
non-empty partition is `'User Register'`; the file-based combiners
instead select the partitions whose name contains a `'.'` and raise an
error when none does. -/
theorem c3_combiner (m : List (String × List Record)) :
    (∀ p : String × List Record,
      p ∈ driveSelect m ↔
        p ∈ m ∧ p.2 ≠ [] ∧ p.1 ≠ "User Register" ∧
          (hasDigitChar p.1 = true ∨
            ∀ q ∈ m, q.2 ≠ [] → q.1 ≠ "User Register" →
              hasDigitChar q.1 = false)) ∧
    (driveCombine m = none ↔ ∀ p ∈ m, p.2 = [] ∨ p.1 = "User Register") ∧
    (∀ e, mainCombine m = Except.error e ↔
      (e = "No sheets found with dot in their names" ∧
        ∀ p ∈ m, p.1.data.any (fun c => decide (c = '.')) = false)) :=
  ⟨fun p => driveSelect_mem m p, driveCombine_none_iff m,
   fun e => mainCombine_error_iff m e⟩

/-- Witness for C3 at a concrete two-partition mapping. -/
theorem c3_combiner_witness :
    (∀ p : String × List Record,
      p ∈ driveSelect [("1. Intro", [rec0]), ("Notes", [rec0])] ↔
        p ∈ [("1. Intro", [rec0]), ("Notes", [rec0])] ∧ p.2 ≠ [] ∧
          p.1 ≠ "User Register" ∧
          (hasDigitChar p.1 = true ∨
            ∀ q ∈ [("1. Intro", [rec0]), ("Notes", [rec0])], q.2 ≠ [] →
              q.1 ≠ "User Register" → hasDigitChar q.1 = false)) ∧
    (driveCombine [("1. Intro", [rec0]), ("Notes", [rec0])] = none ↔
      ∀ p ∈ [("1. Intro", [rec0]), ("Notes", [rec0])],
        p.2 = [] ∨ p.1 = "User Register") ∧
    (∀ e, mainCombine [("1. Intro", [rec0]), ("Notes", [rec0])]
        = Except.error e ↔
      (e = "No sheets found with dot in their names" ∧
        ∀ p ∈ [("1. Intro", [rec0]), ("Notes", [rec0])],
          p.1.data.any (fun c => decide (c = '.')) = false)) :=
  c3_combiner [("1. Intro", [rec0]), ("Notes", [rec0])]

/-- C3 counterexample: the file-based combiner raises on a mapping whose
only partition is named `"Lesson 1"` — a non-empty partition whose name
contains a digit but no `'.'` — and the Drive combiner returns the
no-data result on a mapping whose only (non-empty) partition is
`'User Register'`. -/
theorem c3_counterexample :
    hasDigitChar "Lesson 1" = true ∧
    mainCombine [("Lesson 1", [rec0])]
      = Except.error "No sheets found with dot in their names" ∧
    driveCombine [("User Register", [rec0])] = none :=
  ⟨rfl, rfl, rfl⟩

/-- C5 amended: the batch runner has no partial-failure isolation — when
any requested report of the `User Register` block fails, `process_file`
returns that single failure status with no results: reports after the
failing one do not run and the outcomes of reports that had already
succeeded are discarded rather than surfaced. -/
theorem c5_register_failure_aborts (wb : Workbook) (ops : List Op)
    (sheet : String × DataFrame) (e : String)
    (hfind : wb.find? (fun p => decide (p.1 = "User Register")) = some sheet)
    (hreq : ops.any (fun o => decide (o ∈ registerOps)) = true)
    (herr : runRegisterBlock sheet.2 ops = Except.error e) :
    processFile (some wb) ops
      = ⟨"Error processing User Register sheet: " ++ e, none⟩ := by
  simp only [processFile]
  rw [if_pos hreq, hfind]
  simp only [herr]

/-- Witness for C5: on the workbook lacking a referrer column, the batch
`[by-source, by-ref]` ends with the by-ref `KeyError`. -/
theorem c5_register_failure_aborts_witness :
    processFile (some wb0) [Op.dailyBySource, Op.dailyByRef]
      = ⟨"Error processing User Register sheet: KeyError: Ref By", none⟩ :=
  c5_register_failure_aborts wb0 [Op.dailyBySource, Op.dailyByRef]
    ("User Register", df0) "KeyError: Ref By" rfl rfl rfl

/-- C5 counterexample: requesting the by-source and by-ref daily reports
on a `User Register` sheet with no referrer column returns only the
by-ref failure and surfaces no results at all, although the by-source
report alone succeeds on the same workbook — the failure of one report
aborts and discards the other. -/
theorem c5_counterexample :
    processFile (some wb0) [Op.dailyBySource, Op.dailyByRef]
      = ⟨"Error processing User Register sheet: KeyError: Ref By", none⟩ ∧
    processFile (some wb0) [Op.dailyBySource]
      = ⟨"Processing completed successfully!",
          some [("Daily Registers by Source Name",
            ⟨[Value.str "A", Value.str "Total"], [Value.str "2025-04-16"],
              [[1], [1]]⟩)]⟩ :=
  ⟨rfl, rfl⟩

end Statistical
